import Mathlib

/-!
Verification of the color management engine of the Oklab color picker
(src/color-math.js, src/color-spaces.js).

The JavaScript numeric code is shallowly embedded over `ℝ`, with the
idealized real semantics of the IEEE operations: `Math.cbrt` becomes the
(odd) real cube root, `Math.pow`/`**` becomes `Real.rpow`, `Math.atan2 y x`
becomes `Complex.arg ⟨x, y⟩` (same branch cut and `atan2 0 0 = 0`
convention), `Math.sqrt` becomes `Real.sqrt`, and `Math.max/min` become
`max`/`min`.  String- and byte-level code (hex formatting/parsing, the ICC
profile parser) is embedded executably: JS strings become `List Char`,
`ArrayBuffer`/`Uint8Array` becomes `List ℕ` of bytes, thrown exceptions
become `Except String`, and the exact numeric literals of the source are
kept as rational constants.
-/

namespace OklabPicker

noncomputable section RealModel

open Real

open Classical

/-- Real cube root (the semantics of JS `Math.cbrt`): odd extension of
`x ^ (1/3)` from nonnegative reals to all of `ℝ`. -/
def cbrt (x : ℝ) : ℝ :=
  if 0 ≤ x then x ^ ((1 : ℝ) / 3) else -((-x) ^ ((1 : ℝ) / 3))

/-- JS `Math.atan2 y x`, embedded as the argument of the complex number
`x + y i` (same principal branch `(-π, π]` and `atan2 0 0 = 0`). -/
def atan2 (y x : ℝ) : ℝ := Complex.arg ⟨x, y⟩

/-- Port of `oklabToLinearSRGB` (src/color-math.js:16): OKLab → cube-root
LMS (affine), cube, then the fixed LMS → linear sRGB matrix. -/
def oklabToLinearSRGB (L a b : ℝ) : ℝ × ℝ × ℝ :=
  let lCubeRoot := L + 0.3963377774 * a + 0.2158037573 * b
  let mCubeRoot := L - 0.1055613458 * a - 0.0638541728 * b
  let sCubeRoot := L - 0.0894841775 * a - 1.2914855480 * b
  let lLinear := lCubeRoot ^ 3
  let mLinear := mCubeRoot ^ 3
  let sLinear := sCubeRoot ^ 3
  let red   :=  4.0767416621 * lLinear - 3.3077115913 * mLinear + 0.2309699292 * sLinear
  let green := -1.2684380046 * lLinear + 2.6097574011 * mLinear - 0.3413193965 * sLinear
  let blue  := -0.0041960863 * lLinear - 0.7034186147 * mLinear + 1.7076147010 * sLinear
  (red, green, blue)

/-- Port of `linearSRGBToOKLab` (src/color-math.js:101): linear sRGB → LMS
matrix, cube root, then the fixed LMS → OKLab matrix. -/
def linearSRGBToOKLab (r g b : ℝ) : ℝ × ℝ × ℝ :=
  let lLinear := 0.4122214708 * r + 0.5363325363 * g + 0.0514459929 * b
  let mLinear := 0.2119034982 * r + 0.6806995451 * g + 0.1073969566 * b
  let sLinear := 0.0883024619 * r + 0.2817188376 * g + 0.6299787005 * b
  let lRoot := cbrt lLinear
  let mRoot := cbrt mLinear
  let sRoot := cbrt sLinear
  let L :=  0.2104542553 * lRoot + 0.7936177850 * mRoot - 0.0040720468 * sRoot
  let a :=  1.9779984951 * lRoot - 2.4285922050 * mRoot + 0.4505937099 * sRoot
  let ob := 0.0259040371 * lRoot + 0.7827717662 * mRoot - 0.8086757660 * sRoot
  (L, a, ob)

/-- Port of `oklabToOklch` (src/color-math.js:74): polar form, hue in
degrees normalized to `[0, 360)` by adding 360 to negative angles. -/
def oklabToOklch (a b : ℝ) : ℝ × ℝ :=
  let chroma := Real.sqrt (a * a + b * b)
  let hueDegrees := atan2 b a * (180 / Real.pi)
  (chroma, if hueDegrees < 0 then hueDegrees + 360 else hueDegrees)

/-- Port of `oklchToOklab` (src/color-math.js:85). -/
def oklchToOklab (chroma hueDegrees : ℝ) : ℝ × ℝ :=
  let hueRadians := hueDegrees * (Real.pi / 180)
  (chroma * Real.cos hueRadians, chroma * Real.sin hueRadians)

/-- Port of `clamp01` (src/color-math.js:151), generic over the value
field (the JS function is untyped and is used on both the real-valued and
the exact rational paths of this embedding). -/
def clamp01 {α : Type} [LinearOrderedField α] (value : α) : α :=
  max 0 (min 1 value)

/-- Port of `linearToGamma` (src/color-math.js:131): input clamped to
`[0,1]`, then the piecewise sRGB transfer function. -/
def linearToGamma (linearValue : ℝ) : ℝ :=
  let clamped := max 0 (min 1 linearValue)
  if 0.0031308 ≤ clamped then 1.055 * clamped ^ ((1:ℝ) / 2.4) - 0.055
  else 12.92 * clamped

/-- Port of `gammaToLinear` (src/color-math.js:143): the inverse sRGB
transfer function; the input is not clamped. -/
def gammaToLinear (gammaValue : ℝ) : ℝ :=
  if 0.04045 ≤ gammaValue then ((gammaValue + 0.055) / 1.055) ^ (2.4:ℝ)
  else gammaValue / 12.92

/-- Port of `isInGamut` (src/color-math.js:160): each component within
`[0,1]` expanded by the fixed tolerance `5e-4`. -/
def isInGamut (r g b : ℝ) : Prop :=
  let TOLERANCE : ℝ := 5e-4;
  -TOLERANCE ≤ r ∧ r ≤ 1 + TOLERANCE ∧
  -TOLERANCE ≤ g ∧ g ≤ 1 + TOLERANCE ∧
  -TOLERANCE ≤ b ∧ b ≤ 1 + TOLERANCE

/-- Working color space record (src/color-spaces.js:72 `createWorkingCS`):
the capability set used by the gamut service. The matrices are already
baked into the two conversion functions, as in the source. -/
structure WorkingCS where
  name : String
  toLinearSRGB : ℝ → ℝ → ℝ → ℝ × ℝ × ℝ
  fromLinearSRGB : ℝ → ℝ → ℝ → ℝ × ℝ × ℝ
  decode : ℝ → ℝ
  encode : ℝ → ℝ

/-- Port of `createSRGBWorkingCS` (src/color-spaces.js:83): identity
matrices with the sRGB transfer function. -/
def createSRGBWorkingCS : WorkingCS where
  name := "sRGB"
  toLinearSRGB := fun r g b => (1*r + 0*g + 0*b, 0*r + 1*g + 0*b, 0*r + 0*g + 1*b)
  fromLinearSRGB := fun r g b => (1*r + 0*g + 0*b, 0*r + 1*g + 0*b, 0*r + 0*g + 1*b)
  decode := gammaToLinear
  encode := linearToGamma

/-- Port of `isInWorkingGamut` (src/color-math.js:209), with the active
working color space passed explicitly instead of read from the global. -/
def isInWorkingGamut (W : WorkingCS) (L a b : ℝ) : Prop :=
  let rgb := oklabToLinearSRGB L a b
  let w := W.fromLinearSRGB rgb.1 rgb.2.1 rgb.2.2
  isInGamut w.1 w.2.1 w.2.2

/-- The bisection loop of `findMaxInGamutChroma` (src/color-math.js:224):
`n` halving steps on `[lo, hi]`, keeping `lo` on in-gamut test points.
The in-gamut test on a candidate chroma is abstracted as `ok`. -/
def bisectChroma (ok : ℝ → Prop) : ℕ → ℝ → ℝ → ℝ
  | 0, lo, _ => lo
  | n + 1, lo, hi =>
    let mid := (lo + hi) / 2
    if ok mid then bisectChroma ok n mid hi else bisectChroma ok n lo mid

/-- The in-gamut test used on a candidate chroma at fixed lightness and
hue (the body of the loop in src/color-math.js:226-227). -/
def chromaOk (W : WorkingCS) (L hueDegrees : ℝ) (c : ℝ) : Prop :=
  let ab := oklchToOklab c hueDegrees
  isInWorkingGamut W L ab.1 ab.2

/-- Port of `findMaxInGamutChroma` (src/color-math.js:220): short-circuit
if `maxSearch` itself is in gamut, otherwise 20 bisection steps. -/
def findMaxInGamutChroma (W : WorkingCS) (L hueDegrees maxSearch : ℝ) : ℝ :=
  if chromaOk W L hueDegrees maxSearch then maxSearch
  else bisectChroma (chromaOk W L hueDegrees) 20 0 maxSearch

/-- Port of `clampToWorkingGamut` (src/color-math.js:237). -/
def clampToWorkingGamut (W : WorkingCS) (L a b : ℝ) : ℝ × ℝ :=
  if isInWorkingGamut W L a b then (a, b)
  else
    let ch := oklabToOklch a b
    let maxChroma := findMaxInGamutChroma W L ch.2 ch.1
    oklchToOklab maxChroma ch.2

end RealModel

section ExactModel

/-- JS `String.prototype.trim`: drop whitespace from both ends (strings
are modeled as `List Char` throughout the exact part of the embedding). -/
def trimChars (l : List Char) : List Char :=
  ((l.dropWhile Char.isWhitespace).reverse.dropWhile Char.isWhitespace).reverse

/-- Lowercase hex digit test (the output alphabet of JS
`Number.prototype.toString(16)`), used to state output-shape claims. -/
def isLowerHexDigit (c : Char) : Bool :=
  ('0' ≤ c && c ≤ '9') || ('a' ≤ c && c ≤ 'f')

/-- Case-insensitive hex digit test, the character class `[0-9a-f]` of the
`/^[0-9a-f]{6}$/i` check in `parseHex` (src/color-math.js:192). -/
def isHexDigitCI (c : Char) : Bool :=
  ('0' ≤ c && c ≤ '9') || ('a' ≤ c && c ≤ 'f') || ('A' ≤ c && c ≤ 'F')

/-- Value of one hex digit, as used by JS `parseInt(·, 16)`. -/
def hexDigitVal (c : Char) : ℕ :=
  if '0' ≤ c && c ≤ '9' then c.toNat - '0'.toNat
  else if 'a' ≤ c && c ≤ 'f' then c.toNat - 'a'.toNat + 10
  else if 'A' ≤ c && c ≤ 'F' then c.toNat - 'A'.toNat + 10
  else 0

/-- JS `Math.round`: round half up, i.e. `⌊x + 1/2⌋`. -/
def jsRound (q : ℚ) : ℤ := ⌊q + 1 / 2⌋

/-- JS `n.toString(16).padStart(2, '0')` on a byte value. -/
def byteToHex (n : ℕ) : List Char :=
  let s := Nat.toDigits 16 n
  List.replicate (2 - s.length) '0' ++ s

/-- The `toByteHex` helper of `rgbToHex` (src/color-math.js:174):
`Math.round(clamp01 v * 255).toString(16).padStart(2, '0')`. -/
def toByteHex (value : ℚ) : List Char :=
  byteToHex (jsRound (clamp01 value * 255)).toNat

/-- Port of `rgbToHex` (src/color-math.js:173). -/
def rgbToHex (r g b : ℚ) : List Char :=
  '#' :: (toByteHex r ++ toByteHex g ++ toByteHex b)

/-- Port of `parseHex` (src/color-math.js:190): trim, strip one leading
`#`, require exactly six case-insensitive hex digits, parse byte pairs. -/
def parseHex (str : List Char) : Option (ℚ × ℚ × ℚ) :=
  let t0 := trimChars str
  let t := match t0 with
    | '#' :: rest => rest
    | _ => t0
  if t.length = 6 && t.all isHexDigitCI then
    let rv := hexDigitVal (t.getD 0 '0') * 16 + hexDigitVal (t.getD 1 '0')
    let gv := hexDigitVal (t.getD 2 '0') * 16 + hexDigitVal (t.getD 3 '0')
    let bv := hexDigitVal (t.getD 4 '0') * 16 + hexDigitVal (t.getD 5 '0')
    some ((rv : ℚ) / 255, (gv : ℚ) / 255, (bv : ℚ) / 255)
  else none

/-- A 3×3 matrix of field elements, row major (src/color-spaces.js keeps
them as arrays of three rows). -/
structure Mat3 (α : Type) where
  a00 : α
  a01 : α
  a02 : α
  a10 : α
  a11 : α
  a12 : α
  a20 : α
  a21 : α
  a22 : α

variable {α : Type} [LinearOrderedField α]

/-- Port of `mat3Multiply` (src/color-spaces.js:7). -/
def mat3Multiply (A B : Mat3 α) : Mat3 α :=
  ⟨A.a00*B.a00 + A.a01*B.a10 + A.a02*B.a20,
   A.a00*B.a01 + A.a01*B.a11 + A.a02*B.a21,
   A.a00*B.a02 + A.a01*B.a12 + A.a02*B.a22,
   A.a10*B.a00 + A.a11*B.a10 + A.a12*B.a20,
   A.a10*B.a01 + A.a11*B.a11 + A.a12*B.a21,
   A.a10*B.a02 + A.a11*B.a12 + A.a12*B.a22,
   A.a20*B.a00 + A.a21*B.a10 + A.a22*B.a20,
   A.a20*B.a01 + A.a21*B.a11 + A.a22*B.a21,
   A.a20*B.a02 + A.a21*B.a12 + A.a22*B.a22⟩

/-- Port of `mat3Apply` (src/color-spaces.js:16). -/
def mat3Apply (M : Mat3 α) (r g b : α) : α × α × α :=
  (M.a00*r + M.a01*g + M.a02*b,
   M.a10*r + M.a11*g + M.a12*b,
   M.a20*r + M.a21*g + M.a22*b)

/-- The determinant computed inside `mat3Invert` (src/color-spaces.js:27),
with rows `[a,b,c; d,e,f; g,h,k]`. -/
def mat3Det (M : Mat3 α) : α :=
  M.a00*(M.a11*M.a22 - M.a12*M.a21)
    - M.a01*(M.a10*M.a22 - M.a12*M.a20)
    + M.a02*(M.a10*M.a21 - M.a11*M.a20)

/-- Port of `mat3Invert` (src/color-spaces.js:25): Cramer's rule, with the
singularity cutoff `|det| < 1e-15` returning no value. -/
def mat3Invert (M : Mat3 α) : Option (Mat3 α) :=
  let det := mat3Det M
  if |det| < 1e-15 then none
  else
    let inv := 1 / det
    some ⟨(M.a11*M.a22 - M.a12*M.a21)*inv,
          (M.a02*M.a21 - M.a01*M.a22)*inv,
          (M.a01*M.a12 - M.a02*M.a11)*inv,
          (M.a12*M.a20 - M.a10*M.a22)*inv,
          (M.a00*M.a22 - M.a02*M.a20)*inv,
          (M.a02*M.a10 - M.a00*M.a12)*inv,
          (M.a10*M.a21 - M.a11*M.a20)*inv,
          (M.a01*M.a20 - M.a00*M.a21)*inv,
          (M.a00*M.a11 - M.a01*M.a10)*inv⟩

/-- Constant `XYZ_TO_LINEAR_SRGB` (src/color-spaces.js:46), exact decimals. -/
def XYZ_TO_LINEAR_SRGB : Mat3 ℚ :=
  ⟨3.2409699419045226, -1.5373831775700939, -0.4986107602930034,
   -0.9692436362808796, 1.8759675015077202, 0.04155505740717559,
   0.05563007969699366, -0.20397696064091520, 1.0569715142428786⟩

/-- Constant `BRADFORD_D50_TO_D65` (src/color-spaces.js:58), exact decimals. -/
def BRADFORD_D50_TO_D65 : Mat3 ℚ :=
  ⟨0.9555766, -0.0230393, 0.0631636,
   -0.0282895, 1.0099416, 0.0210077,
   0.0122982, -0.0204830, 1.3299098⟩

/-- Byte access `bytes[i]` on the `Uint8Array` view: out-of-bounds JS
reads yield `undefined`, which `String.fromCharCode` coerces to code 0. -/
def byteAt (buf : List ℕ) (i : ℕ) : ℕ := buf.getD i 0

/-- JS `DataView.getUint16(i, false)`: big-endian, throws on out-of-bounds. -/
def getU16 (buf : List ℕ) (i : ℕ) : Except String ℕ :=
  if i + 2 ≤ buf.length then .ok (byteAt buf i * 256 + byteAt buf (i+1))
  else .error "RangeError: DataView read out of bounds"

/-- JS `DataView.getUint32(i, false)`: big-endian, throws on out-of-bounds. -/
def getU32 (buf : List ℕ) (i : ℕ) : Except String ℕ :=
  if i + 4 ≤ buf.length then
    .ok (((byteAt buf i * 256 + byteAt buf (i+1)) * 256 + byteAt buf (i+2)) * 256
          + byteAt buf (i+3))
  else .error "RangeError: DataView read out of bounds"

/-- JS `DataView.getInt32(i, false)`: the unsigned read, two's complement. -/
def getI32 (buf : List ℕ) (i : ℕ) : Except String ℤ := do
  let u ← getU32 buf i
  pure (if u < 2 ^ 31 then (u : ℤ) else (u : ℤ) - 2 ^ 32)

/-- Port of `readS15Fixed16` (src/color-spaces.js:122). -/
def readS15Fixed16 (buf : List ℕ) (i : ℕ) : Except String ℚ := do
  let raw ← getI32 buf i
  pure ((raw : ℚ) / 65536)

/-- Four-character tag signature via `String.fromCharCode` on raw bytes. -/
def sig4 (buf : List ℕ) (o : ℕ) : String :=
  String.mk [Char.ofNat (byteAt buf o), Char.ofNat (byteAt buf (o+1)),
             Char.ofNat (byteAt buf (o+2)), Char.ofNat (byteAt buf (o+3))]

/-- The tag-table reading loop of `parseICCProfile`
(src/color-spaces.js:139-146). Entries are accumulated newest first so
that lookup sees the last write, as JS object assignment does. -/
def readTagEntries (buf : List ℕ) :
    ℕ → ℕ → List (String × ℕ × ℕ) → Except String (List (String × ℕ × ℕ))
  | 0, _, acc => .ok acc
  | n + 1, i, acc => do
    let base := 132 + i * 12
    let off ← getU32 buf (base + 4)
    let sz ← getU32 buf (base + 8)
    readTagEntries buf n (i + 1) ((sig4 buf base, off, sz) :: acc)

/-- Tag table of an ICC buffer: count at offset 128, entries from 132. -/
def readTagTable (buf : List ℕ) : Except String (List (String × ℕ × ℕ)) := do
  let tagCount ← getU32 buf 128
  readTagEntries buf tagCount 0 []

/-- Lookup `tags[sig]` (first hit is the most recent write). -/
def tagLookup (tags : List (String × ℕ × ℕ)) (sig : String) : Option (ℕ × ℕ) :=
  List.lookup sig tags

/-- Reading loop for a big-endian `Uint16` array (the `mluc` description
and `curv` table reads of src/color-spaces.js:166-168, 226-228). -/
def readU16Array (buf : List ℕ) (o : ℕ) : ℕ → ℕ → Except String (List ℕ)
  | 0, _ => .ok []
  | n + 1, i => do
    let v ← getU16 buf (o + i * 2)
    let rest ← readU16Array buf o n (i + 1)
    pure (v :: rest)

/-- The profile-description extraction of `parseICCProfile`
(src/color-spaces.js:149-173): ICC v2 `desc` (ASCII) or v4 `mluc`
(UTF-16 code units, NULs removed), defaulting to "Custom CS". -/
def readProfileName (buf : List ℕ) (tags : List (String × ℕ × ℕ)) :
    Except String String :=
  match tagLookup tags "desc" with
  | none => .ok "Custom CS"
  | some dsc =>
    let descOff := dsc.1
    let descType := sig4 buf descOff
    if descType = "desc" then do
      let strLen ← getU32 buf (descOff + 8)
      let strBytes := (buf.drop (descOff + 12)).take (strLen - 1)
      let nm := String.mk (trimChars (strBytes.map Char.ofNat))
      pure (if nm = "" then "Custom CS" else nm)
    else if descType = "mluc" then do
      let recCount ← getU32 buf (descOff + 8)
      if 0 < recCount then do
        let recLen ← getU32 buf (descOff + 16)
        let recOff ← getU32 buf (descOff + 20)
        let codes ← readU16Array buf (descOff + recOff) (recLen / 2) 0
        let nm := String.mk (trimChars ((codes.filter (fun c => c ≠ 0)).map Char.ofNat))
        pure (if nm = "" then "Custom CS" else nm)
      else pure "Custom CS"
    else pure "Custom CS"

/-- An XYZ tag body: type + reserved skipped, three s15.16 numbers
(src/color-spaces.js:181-188). -/
def readXYZTag (buf : List ℕ) (tagOff : ℕ) : Except String (ℚ × ℚ × ℚ) := do
  let o := tagOff + 8
  let x ← readS15Fixed16 buf o
  let y ← readS15Fixed16 buf (o + 4)
  let z ← readS15Fixed16 buf (o + 8)
  pure (x, y, z)

/-- Defunctionalized tone response curve: the closures built by
`parseTRC` (src/color-spaces.js:208-296) become data interpreted by
`trcDecode`/`trcEncode` below. `para0` also covers the fallback for
unknown parametric function numbers, which builds the same closure. -/
inductive TRCKind where
  | identity
  | gamma (g : ℚ)
  | table (t : List ℚ)
  | para0 (g : ℚ)
  | para3 (g a b c d : ℚ)
  | para4 (g a b c d e f : ℚ)
  | srgb

/-- Port of `parseTRC` (src/color-spaces.js:208): `curv` (identity,
single gamma, or sampled table) and `para` (types 0/3/4, else gamma-only
fallback); unknown types mean the sRGB transfer function. -/
def parseTRC (buf : List ℕ) (o : ℕ) : Except String TRCKind :=
  let type := sig4 buf o
  if type = "curv" then do
    let count ← getU32 buf (o + 8)
    if count = 0 then pure .identity
    else if count = 1 then do
      let raw ← getU16 buf (o + 12)
      pure (.gamma ((raw : ℚ) / 256))
    else do
      let raws ← readU16Array buf (o + 12) count 0
      pure (.table (raws.map (fun v => (v : ℚ) / 65535)))
  else if type = "para" then do
    let funcType ← getU16 buf (o + 8)
    if funcType = 0 then do
      let g ← readS15Fixed16 buf (o + 12)
      pure (.para0 g)
    else if funcType = 3 then do
      let g ← readS15Fixed16 buf (o + 12)
      let a ← readS15Fixed16 buf (o + 16)
      let b ← readS15Fixed16 buf (o + 20)
      let c ← readS15Fixed16 buf (o + 24)
      let d ← readS15Fixed16 buf (o + 28)
      pure (.para3 g a b c d)
    else if funcType = 4 then do
      let g ← readS15Fixed16 buf (o + 12)
      let a ← readS15Fixed16 buf (o + 16)
      let b ← readS15Fixed16 buf (o + 20)
      let c ← readS15Fixed16 buf (o + 24)
      let d ← readS15Fixed16 buf (o + 28)
      let e ← readS15Fixed16 buf (o + 32)
      let f ← readS15Fixed16 buf (o + 36)
      pure (.para4 g a b c d e f)
    else do
      let g ← readS15Fixed16 buf (o + 12)
      pure (.para0 g)
  else pure .srgb

/-- The forward scan `while (ti < count - 2 && table[ti + 1] < target) ti++`
of the inverse-LUT construction (src/color-spaces.js:235); the loop is
bounded, so it is expressed with a fuel argument of `count` steps. -/
def advanceTi (t : List ℚ) (count : ℕ) (target : ℚ) : ℕ → ℕ → ℕ
  | 0, ti => ti
  | fuel + 1, ti =>
    if ti < count - 2 ∧ t.getD (ti + 1) 0 < target then
      advanceTi t count target fuel (ti + 1)
    else ti

/-- The inverse-LUT filling loop (src/color-spaces.js:233-239): 4096
entries, each found by advancing the scan position `ti` (carried across
iterations) and interpolating the table index. -/
def buildInvEntries (t : List ℚ) (count : ℕ) : ℕ → ℕ → ℕ → List ℚ
  | 0, _, _ => []
  | n + 1, i, ti =>
    let target : ℚ := (i : ℚ) / 4095
    let ti2 := advanceTi t count target count ti
    let t0 := t.getD ti2 0
    let t1 := t.getD (min (ti2 + 1) (count - 1)) 0
    let frac := if t0 < t1 then (target - t0) / (t1 - t0) else 0
    ((ti2 : ℚ) + frac) / ((count : ℚ) - 1) :: buildInvEntries t count n (i + 1) ti2

/-- The 4096-entry inverse lookup table for a sampled `curv` table
(src/color-spaces.js:230-239). -/
def buildInvTable (t : List ℚ) : List ℚ :=
  buildInvEntries t t.length 4096 0 0

/-- The working color space built from a parsed ICC profile
(src/color-spaces.js:315-322): matrices are exact rationals, tone curves
are `TRCKind` data, and the per-channel flag is always set. -/
structure ICCWorkingCS where
  name : String
  toLinearSRGBMat : Mat3 ℚ
  fromLinearSRGBMat : Mat3 ℚ
  rTRC : TRCKind
  gTRC : TRCKind
  bTRC : TRCKind
  perChannelTRC : Bool

/-- Port of `parseICCProfile` (src/color-spaces.js:132): tag table,
description, required `rXYZ`/`gXYZ`/`bXYZ` primaries, Bradford D50→D65
adaptation, XYZ→sRGB conversion, inversion, and TRC parsing, in source
order. -/
def parseICCProfile (buf : List ℕ) : Except String ICCWorkingCS := do
  let tags ← readTagTable buf
  let profileName ← readProfileName buf tags
  match tagLookup tags "rXYZ", tagLookup tags "gXYZ", tagLookup tags "bXYZ" with
  | some rTag, some gTag, some bTag => do
    let rXYZ ← readXYZTag buf rTag.1
    let gXYZ ← readXYZTag buf gTag.1
    let bXYZ ← readXYZTag buf bTag.1
    let customToXYZ_D50 : Mat3 ℚ :=
      ⟨rXYZ.1, gXYZ.1, bXYZ.1,
       rXYZ.2.1, gXYZ.2.1, bXYZ.2.1,
       rXYZ.2.2, gXYZ.2.2, bXYZ.2.2⟩
    let customToXYZ_D65 := mat3Multiply BRADFORD_D50_TO_D65 customToXYZ_D50
    let customToLinearSRGB := mat3Multiply XYZ_TO_LINEAR_SRGB customToXYZ_D65
    match mat3Invert customToLinearSRGB with
    | none => Except.error "Singular matrix in ICC profile"
    | some linearSRGBToCustom => do
      let rTRC ← match tagLookup tags "rTRC" with
        | some t => parseTRC buf t.1
        | none => pure TRCKind.srgb
      let gTRC ← match tagLookup tags "gTRC" with
        | some t => parseTRC buf t.1
        | none => pure TRCKind.srgb
      let bTRC ← match tagLookup tags "bTRC" with
        | some t => parseTRC buf t.1
        | none => pure TRCKind.srgb
      pure ⟨profileName, customToLinearSRGB, linearSRGBToCustom, rTRC, gTRC, bTRC, true⟩
  | _, _, _ => Except.error "Not a matrix-based RGB profile (missing XYZ tags)"

/-- The active working color space reference mutated by import/reset:
either a built-in default or an imported ICC space. -/
inductive ActiveCS where
  | srgbDefault
  | p3Default
  | icc (cs : ICCWorkingCS)

/-- The state touched by `handleICCImport` (src/color-spaces.js:328): the
active working color space and the cached raw profile bytes (kept as raw
bytes here; base64 is an encoding detail of persistence). -/
structure AppState where
  workingCS : ActiveCS
  iccProfileBase64 : Option (List ℕ)

/-- Port of `handleICCImport` (src/color-spaces.js:328): on a parse
failure the error is reported and the previous state is kept; on success
the working color space is replaced wholesale. -/
def handleICCImport (st : AppState) (buf : List ℕ) : AppState :=
  match parseICCProfile buf with
  | .ok cs => ⟨.icc cs, some buf⟩
  | .error _ => st

end ExactModel

noncomputable section TRCInterp

/-- Interpretation of the `decode` closures built by `parseTRC`: encoded
value → linear (src/color-spaces.js:212-295). -/
def trcDecode : TRCKind → ℝ → ℝ
  | .identity, v => v
  | .gamma g, v => (max 0 v) ^ ((g : ℝ))
  | .table t, v =>
    let count := t.length
    let x := max 0 (min 1 v) * ((count : ℝ) - 1)
    let lo := ⌊x⌋.toNat
    let hi := min (lo + 1) (count - 1)
    ((t.getD lo 0 : ℚ) : ℝ)
      + (((t.getD hi 0 : ℚ) : ℝ) - ((t.getD lo 0 : ℚ) : ℝ)) * (x - (lo : ℝ))
  | .para0 g, v => (max 0 v) ^ ((g : ℝ))
  | .para3 g a b c d, v =>
    if (d : ℝ) ≤ v then ((a : ℝ) * v + (b : ℝ)) ^ ((g : ℝ)) else (c : ℝ) * v
  | .para4 g a b c d e f, v =>
    if (d : ℝ) ≤ v then ((a : ℝ) * v + (b : ℝ)) ^ ((g : ℝ)) + (e : ℝ)
    else (c : ℝ) * v + (f : ℝ)
  | .srgb, v => gammaToLinear v

open Classical in
/-- Interpretation of the `encode` closures built by `parseTRC`: linear →
encoded (src/color-spaces.js:212-295). For the parametric types the
linear branch is taken only when the input is at most the breakpoint in
output space AND `c ≠ 0`, exactly as the source guards its division. The
table inverse lookup table is built by `buildInvTable` below. -/
def trcEncode : TRCKind → ℝ → ℝ
  | .identity, v => v
  | .gamma g, v => (max 0 v) ^ ((1 : ℝ) / (g : ℝ))
  | .table t, v =>
    let inv := buildInvTable t
    let x := max 0 (min 1 v) * 4095
    let lo := ⌊x⌋.toNat
    let hi := min (lo + 1) 4095
    ((inv.getD lo 0 : ℚ) : ℝ)
      + (((inv.getD hi 0 : ℚ) : ℝ) - ((inv.getD lo 0 : ℚ) : ℝ)) * (x - (lo : ℝ))
  | .para0 g, v => (max 0 v) ^ ((1 : ℝ) / (g : ℝ))
  | .para3 g a b c d, v =>
    if v ≤ (c : ℝ) * (d : ℝ) ∧ (c : ℝ) ≠ 0 then v / (c : ℝ)
    else ((max 0 v) ^ ((1 : ℝ) / (g : ℝ)) - (b : ℝ)) / (a : ℝ)
  | .para4 g a b c d e f, v =>
    if v ≤ (c : ℝ) * (d : ℝ) + (f : ℝ) ∧ (c : ℝ) ≠ 0 then (v - (f : ℝ)) / (c : ℝ)
    else ((max 0 (v - (e : ℝ))) ^ ((1 : ℝ) / (g : ℝ)) - (b : ℝ)) / (a : ℝ)
  | .srgb, v => linearToGamma v

end TRCInterp


section Proofs

open Real

lemma cbrt_nonneg {x : ℝ} (hx : 0 ≤ x) : 0 ≤ cbrt x := by
  rw [cbrt, if_pos hx]
  exact Real.rpow_nonneg hx _

lemma cbrt_cube (x : ℝ) : cbrt x ^ 3 = x := by
  rw [cbrt]
  split_ifs with h
  · rw [← Real.rpow_natCast (x ^ ((1:ℝ)/3)) 3, ← Real.rpow_mul h]
    norm_num
  · have h' : 0 ≤ -x := by linarith
    have hkey : ((-x) ^ ((1:ℝ)/3)) ^ (3:ℕ) = -x := by
      rw [← Real.rpow_natCast ((-x) ^ ((1:ℝ)/3)) 3, ← Real.rpow_mul h']
      norm_num
    calc (-((-x) ^ ((1:ℝ)/3))) ^ 3 = -(((-x) ^ ((1:ℝ)/3)) ^ (3:ℕ)) := by ring
    _ = -(-x) := by rw [hkey]
    _ = x := by ring

lemma cube_lt_cube {x y : ℝ} (h : x < y) : x ^ 3 < y ^ 3 :=
  Odd.strictMono_pow (by decide) h

lemma cube_le_cube {x y : ℝ} (h : x ≤ y) : x ^ 3 ≤ y ^ 3 := by
  rcases eq_or_lt_of_le h with rfl | h'
  · exact le_rfl
  · exact (cube_lt_cube h').le

lemma cbrt_mono {x y : ℝ} (h : x ≤ y) : cbrt x ≤ cbrt y := by
  by_contra hc
  push_neg at hc
  have := cube_lt_cube hc
  rw [cbrt_cube, cbrt_cube] at this
  linarith

lemma cbrt_cube' (x : ℝ) : cbrt (x ^ 3) = x := by
  have h1 := cbrt_cube (x ^ 3)
  by_contra hne
  rcases lt_or_gt_of_ne hne with h | h
  · have := cube_lt_cube h
    rw [h1] at this
    exact lt_irrefl _ this
  · have := cube_lt_cube h
    rw [h1] at this
    exact lt_irrefl _ this

lemma cbrt_le_of_cube {x t : ℝ} (h : x ≤ t ^ 3) : cbrt x ≤ t := by
  have := cbrt_mono h
  rwa [cbrt_cube'] at this

lemma le_cbrt_of_cube {x t : ℝ} (h : t ^ 3 ≤ x) : t ≤ cbrt x := by
  have := cbrt_mono h
  rwa [cbrt_cube'] at this

/-- Hölder-type bound for the odd cube root: moving the argument by `δ`
moves the cube root by at most `2 δ^(1/3)`. -/
lemma abs_cbrt_sub_cbrt (x y : ℝ) : |cbrt x - cbrt y| ≤ 2 * cbrt |x - y| := by
  have key : ∀ a b : ℝ, b ≤ a → cbrt a - cbrt b ≤ 2 * cbrt (a - b) := by
    intro a b hba
    have hab : 0 ≤ a - b := by linarith
    have hc : 0 ≤ cbrt (a - b) := cbrt_nonneg hab
    rcases le_or_lt 0 b with hb | hb
    · -- both nonnegative: cbrt a - cbrt b ≤ cbrt (a - b)
      have hu : 0 ≤ cbrt b := cbrt_nonneg hb
      have huv : cbrt b ≤ cbrt a := cbrt_mono hba
      have hcube : (cbrt a - cbrt b) ^ 3 ≤ a - b := by
        have h1 : cbrt a ^ 3 = a := cbrt_cube a
        have h2 : cbrt b ^ 3 = b := cbrt_cube b
        nlinarith [mul_nonneg (mul_nonneg hu (sub_nonneg.2 huv)) (le_trans hu huv)]
      have := le_cbrt_of_cube hcube
      linarith
    · rcases le_or_lt a 0 with ha | ha
      · -- both nonpositive: mirror the previous case through negation
        have hb' : 0 ≤ -a := by linarith
        have hu : 0 ≤ cbrt (-a) := cbrt_nonneg hb'
        have huv : cbrt (-a) ≤ cbrt (-b) := cbrt_mono (by linarith)
        have hcube : (cbrt (-b) - cbrt (-a)) ^ 3 ≤ (-b) - (-a) := by
          have h1 : cbrt (-a) ^ 3 = -a := cbrt_cube (-a)
          have h2 : cbrt (-b) ^ 3 = -b := cbrt_cube (-b)
          nlinarith [mul_nonneg (mul_nonneg hu (sub_nonneg.2 huv)) (le_trans hu huv)]
        have hle := le_cbrt_of_cube hcube
        have hnegb : cbrt (-b) = -cbrt b := by
          have : cbrt ((-cbrt b) ^ 3) = -cbrt b := cbrt_cube' _
          have hb3 : (-cbrt b) ^ 3 = -b := by
            have := cbrt_cube b
            nlinarith [cbrt_cube b]
          rwa [hb3] at this
        have hnega : cbrt (-a) = -cbrt a := by
          have hb3 : (-cbrt a) ^ 3 = -a := by nlinarith [cbrt_cube a]
          have : cbrt ((-cbrt a) ^ 3) = -cbrt a := cbrt_cube' _
          rwa [hb3] at this
        have harew : (-b) - (-a) = a - b := by ring
        rw [hnegb, hnega, harew] at hle
        linarith
      · -- b < 0 < a: each piece is at most cbrt (a - b)
        have h1 : cbrt a ≤ cbrt (a - b) := cbrt_mono (by linarith)
        have h2 : cbrt (-b) ≤ cbrt (a - b) := cbrt_mono (by linarith)
        have hnegb : cbrt (-b) = -cbrt b := by
          have hb3 : (-cbrt b) ^ 3 = -b := by nlinarith [cbrt_cube b]
          have : cbrt ((-cbrt b) ^ 3) = -cbrt b := cbrt_cube' _
          rwa [hb3] at this
        rw [hnegb] at h2
        linarith
  rcases le_total y x with h | h
  · have h1 := key x y h
    have h2 : |cbrt x - cbrt y| = cbrt x - cbrt y :=
      abs_of_nonneg (by linarith [cbrt_mono h])
    have h3 : |x - y| = x - y := abs_of_nonneg (by linarith)
    rw [h2, h3]; exact h1
  · have h1 := key y x h
    have h2 : |cbrt x - cbrt y| = cbrt y - cbrt x :=
      abs_of_nonpos (by linarith [cbrt_mono h]) |>.trans (by ring)
    have h3 : |x - y| = y - x := abs_of_nonpos (by linarith) |>.trans (by ring)
    rw [h2, h3]; exact h1


/-- C6: `isInGamut` holds iff every component lies within `[0,1]` expanded
by the fixed tolerance `5e-4` on both sides; in particular
`isInGamut (1 + 0.0004) 0 0` holds and `isInGamut 1.001 0 0` fails. -/
theorem isInGamut_iff_tolerance :
    (∀ r g b : ℝ, isInGamut r g b ↔
      (-0.0005 ≤ r ∧ r ≤ 1.0005 ∧ -0.0005 ≤ g ∧ g ≤ 1.0005 ∧
       -0.0005 ≤ b ∧ b ≤ 1.0005)) ∧
    isInGamut (1 + 0.0004) 0 0 ∧ ¬ isInGamut 1.001 0 0 := by
  refine ⟨fun r g b => ?_, ?_, ?_⟩
  · unfold isInGamut
    norm_num
  · unfold isInGamut
    norm_num
  · unfold isInGamut
    norm_num

/-- C9: for the parametric TRC types 3 and 4 with `c = 0`, the encode
function built by `parseTRC` takes the power-law inverse branch on every
input, so the division by `c` is unreachable. -/
theorem trcEncode_para_c_zero_no_div :
    (∀ (g a b d : ℚ) (v : ℝ), trcEncode (.para3 g a b 0 d) v =
        ((max 0 v) ^ ((1:ℝ)/(g:ℝ)) - (b:ℝ)) / (a:ℝ)) ∧
    (∀ (g a b d e f : ℚ) (v : ℝ), trcEncode (.para4 g a b 0 d e f) v =
        ((max 0 (v - (e:ℝ))) ^ ((1:ℝ)/(g:ℝ)) - (b:ℝ)) / (a:ℝ)) := by
  constructor
  · intro g a b d v
    simp [trcEncode]
  · intro g a b d e f v
    simp [trcEncode]

deriving instance DecidableEq for Except

lemma byteHex_spec : ∀ n : ℕ, n < 256 →
    (byteToHex n).length = 2 ∧
    (byteToHex n).all (fun c => isLowerHexDigit c && !c.isWhitespace) = true ∧
    hexDigitVal ((byteToHex n).getD 0 '0') * 16 + hexDigitVal ((byteToHex n).getD 1 '0') = n := by
  set_option maxRecDepth 10000 in decide

lemma clamp01_nonneg (v : ℚ) : 0 ≤ clamp01 v := le_max_left 0 _

lemma clamp01_le_one (v : ℚ) : clamp01 v ≤ 1 :=
  max_le (by norm_num) (min_le_left 1 v)

lemma jsRound_clamp_nonneg (v : ℚ) : 0 ≤ jsRound (clamp01 v * 255) := by
  unfold jsRound
  have h0 : (0:ℚ) ≤ clamp01 v := clamp01_nonneg v
  have h1 : (0:ℚ) ≤ clamp01 v * 255 + 1/2 := by nlinarith
  exact Int.floor_nonneg.2 h1

lemma jsRound_clamp_le (v : ℚ) : jsRound (clamp01 v * 255) ≤ 255 := by
  unfold jsRound
  have h1 : clamp01 v ≤ 1 := clamp01_le_one v
  have h2 : clamp01 v * 255 + 1/2 < ((256 : ℤ) : ℚ) := by push_cast; nlinarith
  have := Int.floor_lt.2 h2
  omega

lemma byte_lt (v : ℚ) : (jsRound (clamp01 v * 255)).toNat < 256 := by
  have := jsRound_clamp_le v
  omega

lemma all_lower_of_combined {l : List Char}
    (h : l.all (fun c => isLowerHexDigit c && !c.isWhitespace) = true) :
    l.all isLowerHexDigit = true := by
  simp only [List.all_eq_true, Bool.and_eq_true] at h ⊢
  exact fun c hc => (h c hc).1

lemma no_ws_of_combined {l : List Char}
    (h : l.all (fun c => isLowerHexDigit c && !c.isWhitespace) = true) :
    ∀ c ∈ l, c.isWhitespace = false := by
  simp only [List.all_eq_true, Bool.and_eq_true, Bool.not_eq_true'] at h
  exact fun c hc => (h c hc).2

lemma hexCI_of_lower : ∀ c : Char, isLowerHexDigit c = true → isHexDigitCI c = true := by
  intro c h
  simp only [isLowerHexDigit, Bool.or_eq_true, Bool.and_eq_true] at h
  simp only [isHexDigitCI, Bool.or_eq_true, Bool.and_eq_true]
  tauto

/-- C10: `rgbToHex` is total over all inputs: each channel is clamped to
`[0,1]` before quantization, the result is `#` followed by exactly six
lowercase hex digits, and a channel at or below 0 encodes as `00` while a
channel at or above 1 encodes as `ff`. -/
theorem rgbToHex_total :
    ∀ r g b : ℚ,
      rgbToHex r g b = '#' :: (toByteHex r ++ toByteHex g ++ toByteHex b) ∧
      (rgbToHex r g b).length = 7 ∧
      (rgbToHex r g b).tail.all isLowerHexDigit = true ∧
      (r ≤ 0 → toByteHex r = ['0', '0']) ∧
      (1 ≤ r → toByteHex r = ['f', 'f']) := by
  intro r g b
  have hspec : ∀ v : ℚ, (toByteHex v).length = 2 ∧
      (toByteHex v).all (fun c => isLowerHexDigit c && !c.isWhitespace) = true ∧
      hexDigitVal ((toByteHex v).getD 0 '0') * 16 +
        hexDigitVal ((toByteHex v).getD 1 '0') = (jsRound (clamp01 v * 255)).toNat :=
    fun v => byteHex_spec _ (byte_lt v)
  refine ⟨rfl, ?_, ?_, ?_, ?_⟩
  · show ('#' :: (toByteHex r ++ toByteHex g ++ toByteHex b)).length = 7
    simp [List.length_append, (hspec r).1, (hspec g).1, (hspec b).1]
  · show ('#' :: (toByteHex r ++ toByteHex g ++ toByteHex b)).tail.all isLowerHexDigit = true
    simp only [List.tail_cons, List.all_append, Bool.and_eq_true]
    exact ⟨⟨all_lower_of_combined (hspec r).2.1, all_lower_of_combined (hspec g).2.1⟩,
      all_lower_of_combined (hspec b).2.1⟩
  · intro hr
    have hc : clamp01 r = 0 := by
      have h1 : min 1 r ≤ 0 := le_trans (min_le_right 1 r) hr
      exact max_eq_left h1
    unfold toByteHex
    rw [hc]
    norm_num [jsRound]
    decide
  · intro hr
    have hc : clamp01 r = 1 := by
      have h1 : min 1 r = 1 := min_eq_left hr
      unfold clamp01
      rw [h1]
      norm_num
    unfold toByteHex
    rw [hc]
    norm_num [jsRound]
    decide

/-- C10 witness: concrete out-of-range channels saturate as claimed and
the output shape holds. -/
theorem rgbToHex_total_witness :
    toByteHex (-1) = ['0', '0'] ∧ toByteHex 2 = ['f', 'f'] ∧
    (rgbToHex 2 (1/2) (-1)).length = 7 :=
  ⟨(rgbToHex_total (-1) 0 0).2.2.2.1 (by norm_num),
   (rgbToHex_total 2 0 0).2.2.2.2 (by norm_num),
   (rgbToHex_total 2 (1/2) (-1)).2.1⟩

lemma dropWhile_eq_self_of_all {p : Char → Bool} :
    ∀ l : List Char, (∀ c ∈ l, p c = false) → l.dropWhile p = l := by
  intro l h
  cases l with
  | nil => rfl
  | cons a t =>
    rw [List.dropWhile_cons]
    simp [h a (List.mem_cons_self a t)]

lemma trimChars_eq_self {l : List Char} (h : ∀ c ∈ l, c.isWhitespace = false) :
    trimChars l = l := by
  unfold trimChars
  rw [dropWhile_eq_self_of_all l h,
    dropWhile_eq_self_of_all l.reverse (fun c hc => h c (List.mem_reverse.1 hc))]
  exact List.reverse_reverse l

lemma byte_div_255_close {q : ℚ} (h0 : 0 ≤ q) (h1 : q ≤ 1) :
    |((jsRound (clamp01 q * 255)).toNat : ℚ) / 255 - q| ≤ 1 / 255 := by
  have hc : clamp01 q = q := by
    unfold clamp01
    rw [min_eq_right h1]
    exact max_eq_right h0
  have hnn := jsRound_clamp_nonneg q
  have hcast : ((jsRound (clamp01 q * 255)).toNat : ℚ) = ((jsRound (clamp01 q * 255) : ℤ) : ℚ) := by
    have h := Int.toNat_of_nonneg hnn
    exact_mod_cast congrArg (fun z : ℤ => (z : ℚ)) h
  rw [hcast, hc]
  unfold jsRound
  have hfl : ((⌊q * 255 + 1/2⌋ : ℤ) : ℚ) ≤ q * 255 + 1/2 := Int.floor_le _
  have hfg : q * 255 + 1/2 - 1 < ((⌊q * 255 + 1/2⌋ : ℤ) : ℚ) := Int.sub_one_lt_floor _
  rw [abs_le]
  constructor <;> nlinarith

/-- C5: `parseHex (rgbToHex r g b)` succeeds for `r, g, b ∈ [0,1]` and
reproduces each channel to within `1/255`; `parseHex "bad"` returns no
value. -/
theorem parseHex_rgbToHex_roundtrip :
    (∀ r g b : ℚ, 0 ≤ r → r ≤ 1 → 0 ≤ g → g ≤ 1 → 0 ≤ b → b ≤ 1 →
      ∃ p : ℚ × ℚ × ℚ, parseHex (rgbToHex r g b) = some p ∧
        |p.1 - r| ≤ 1/255 ∧ |p.2.1 - g| ≤ 1/255 ∧ |p.2.2 - b| ≤ 1/255) ∧
    parseHex ['b', 'a', 'd'] = none := by
  constructor
  · intro r g b hr0 hr1 hg0 hg1 hb0 hb1
    have hspec : ∀ v : ℚ, (toByteHex v).length = 2 ∧
        (toByteHex v).all (fun c => isLowerHexDigit c && !c.isWhitespace) = true ∧
        hexDigitVal ((toByteHex v).getD 0 '0') * 16 +
          hexDigitVal ((toByteHex v).getD 1 '0') = (jsRound (clamp01 v * 255)).toNat :=
      fun v => byteHex_spec _ (byte_lt v)
    obtain ⟨x0, x1, hx⟩ := List.length_eq_two.1 (hspec r).1
    obtain ⟨y0, y1, hy⟩ := List.length_eq_two.1 (hspec g).1
    obtain ⟨z0, z1, hz⟩ := List.length_eq_two.1 (hspec b).1
    have hlist : rgbToHex r g b = '#' :: [x0, x1, y0, y1, z0, z1] := by
      show '#' :: (toByteHex r ++ toByteHex g ++ toByteHex b) = _
      rw [hx, hy, hz]
      rfl
    have hws : ∀ c ∈ rgbToHex r g b, c.isWhitespace = false := by
      rw [hlist]
      intro c hc
      rcases List.mem_cons.1 hc with rfl | hc
      · decide
      · have : c ∈ toByteHex r ++ toByteHex g ++ toByteHex b := by
          rw [hx, hy, hz]; simpa using hc
        rcases List.mem_append.1 this with h | h
        · rcases List.mem_append.1 h with h | h
          · exact no_ws_of_combined (hspec r).2.1 c h
          · exact no_ws_of_combined (hspec g).2.1 c h
        · exact no_ws_of_combined (hspec b).2.1 c h
    have hlower : ∀ c ∈ ([x0, x1, y0, y1, z0, z1] : List Char), isLowerHexDigit c = true := by
      intro c hc
      have h1 := all_lower_of_combined (hspec r).2.1
      have h2 := all_lower_of_combined (hspec g).2.1
      have h3 := all_lower_of_combined (hspec b).2.1
      rw [hx] at h1
      rw [hy] at h2
      rw [hz] at h3
      simp only [List.all_eq_true] at h1 h2 h3
      fin_cases hc
      · exact h1 x0 (by simp)
      · exact h1 x1 (by simp)
      · exact h2 y0 (by simp)
      · exact h2 y1 (by simp)
      · exact h3 z0 (by simp)
      · exact h3 z1 (by simp)
    have htrim : trimChars (rgbToHex r g b) = '#' :: [x0, x1, y0, y1, z0, z1] := by
      rw [trimChars_eq_self hws, hlist]
    have hall : ([x0, x1, y0, y1, z0, z1] : List Char).all isHexDigitCI = true := by
      simp only [List.all_eq_true]
      exact fun c hc => hexCI_of_lower c (hlower c hc)
    refine ⟨(((jsRound (clamp01 r * 255)).toNat : ℚ) / 255,
            ((jsRound (clamp01 g * 255)).toNat : ℚ) / 255,
            ((jsRound (clamp01 b * 255)).toNat : ℚ) / 255), ?_, ?_, ?_, ?_⟩
    · unfold parseHex
      rw [htrim]
      simp only [hall, List.length_cons, List.length_nil]
      norm_num
      have e1 : hexDigitVal x0 * 16 + hexDigitVal x1 = (jsRound (clamp01 r * 255)).toNat := by
        have := (hspec r).2.2
        rwa [hx] at this
      have e2 : hexDigitVal y0 * 16 + hexDigitVal y1 = (jsRound (clamp01 g * 255)).toNat := by
        have := (hspec g).2.2
        rwa [hy] at this
      have e3 : hexDigitVal z0 * 16 + hexDigitVal z1 = (jsRound (clamp01 b * 255)).toNat := by
        have := (hspec b).2.2
        rwa [hz] at this
      refine ⟨?_, ?_, ?_⟩
      · rw [← e1]
        push_cast
        ring
      · rw [← e2]
        push_cast
        ring
      · rw [← e3]
        push_cast
        ring
    · exact byte_div_255_close hr0 hr1
    · exact byte_div_255_close hg0 hg1
    · exact byte_div_255_close hb0 hb1
  · decide

/-- C5 witness: the round trip at a concrete in-range color. -/
theorem parseHex_rgbToHex_roundtrip_witness :
    ∃ p : ℚ × ℚ × ℚ, parseHex (rgbToHex (1/2) 0 1) = some p ∧
      |p.1 - 1/2| ≤ 1/255 ∧ |p.2.1 - 0| ≤ 1/255 ∧ |p.2.2 - 1| ≤ 1/255 :=
  parseHex_rgbToHex_roundtrip.1 (1/2) 0 1 (by norm_num) (by norm_num)
    (by norm_num) (by norm_num) (by norm_num) (by norm_num)

/-- C3: a profile whose tag table lacks `gXYZ` makes `parseICCProfile`
fail with the explicit "not a matrix-based RGB profile" error (provided
parsing reaches the XYZ check, i.e. the tag table and description reads
themselves succeed), and a failed import leaves the application state —
in particular the active working color space — unchanged. -/
theorem parseICC_missing_tag (buf : List ℕ) (tags : List (String × ℕ × ℕ)) (nm : String)
    (ht : readTagTable buf = .ok tags)
    (hn : readProfileName buf tags = .ok nm)
    (hg : tagLookup tags "gXYZ" = none) :
    parseICCProfile buf = .error "Not a matrix-based RGB profile (missing XYZ tags)" ∧
    ∀ st : AppState, handleICCImport st buf = st := by
  have hp : parseICCProfile buf =
      .error "Not a matrix-based RGB profile (missing XYZ tags)" := by
    unfold parseICCProfile
    rw [ht]
    simp only [bind, Except.bind]
    rw [hn]
    rcases h1 : tagLookup tags "rXYZ" with _ | p1 <;>
      rcases h3 : tagLookup tags "bXYZ" with _ | p3 <;>
        simp [hg]
  refine ⟨hp, fun st => ?_⟩
  unfold handleICCImport
  rw [hp]

set_option maxRecDepth 40000 in
/-- C3 witness: a 132-byte buffer with tag count zero has no `gXYZ` tag;
parsing fails with the missing-XYZ error and the state is untouched. -/
theorem parseICC_missing_tag_witness :
    parseICCProfile (List.replicate 132 0) =
      .error "Not a matrix-based RGB profile (missing XYZ tags)" ∧
    handleICCImport ⟨.srgbDefault, none⟩ (List.replicate 132 0) = ⟨.srgbDefault, none⟩ := by
  have h := parseICC_missing_tag (List.replicate 132 0) [] "Custom CS"
    (by decide) (by decide) (by decide)
  exact ⟨h.1, h.2 _⟩

/-- C7: matrix inversion during ICC parsing fails exactly when the
determinant magnitude is below `1e-15`, and a singular forward matrix
makes `parseICCProfile` fail with the explicit singular-matrix error
instead of producing a working color space. -/
theorem mat3Invert_singular_guard :
    (∀ M : Mat3 ℚ, mat3Invert M = none ↔ |mat3Det M| < 1e-15) ∧
    (∀ (buf : List ℕ) (tags : List (String × ℕ × ℕ)) (nm : String)
       (rOff rSz gOff gSz bOff bSz : ℕ) (rV gV bV : ℚ × ℚ × ℚ),
      readTagTable buf = .ok tags →
      readProfileName buf tags = .ok nm →
      tagLookup tags "rXYZ" = some (rOff, rSz) →
      tagLookup tags "gXYZ" = some (gOff, gSz) →
      tagLookup tags "bXYZ" = some (bOff, bSz) →
      readXYZTag buf rOff = .ok rV →
      readXYZTag buf gOff = .ok gV →
      readXYZTag buf bOff = .ok bV →
      mat3Invert (mat3Multiply XYZ_TO_LINEAR_SRGB (mat3Multiply BRADFORD_D50_TO_D65
        ⟨rV.1, gV.1, bV.1, rV.2.1, gV.2.1, bV.2.1, rV.2.2, gV.2.2, bV.2.2⟩)) = none →
      parseICCProfile buf = .error "Singular matrix in ICC profile") := by
  constructor
  · intro M
    simp only [mat3Invert]
    split_ifs with h <;> simp [h]
  · intro buf tags nm rOff rSz gOff gSz bOff bSz rV gV bV
      ht hn h1 h2 h3 hxr hxg hxb hsing
    unfold parseICCProfile
    rw [ht]
    simp only [bind, Except.bind]
    rw [hn, h1, h2, h3]
    simp only [hxr, bind, Except.bind]
    rw [hxg]
    simp only [bind, Except.bind]
    rw [hxb]
    simp only [bind, Except.bind]
    rw [hsing]

set_option maxRecDepth 100000 in
/-- C7 witness: a synthetic matrix-based profile whose three primaries
are all zero yields a zero forward matrix, whose determinant is below the
cutoff, so parsing fails with the singular-matrix error. -/
theorem mat3Invert_singular_guard_witness :
    parseICCProfile
      (List.replicate 128 0 ++ [0,0,0,3] ++
        [114,88,89,90, 0,0,0,168, 0,0,0,20] ++
        [103,88,89,90, 0,0,0,168, 0,0,0,20] ++
        [98,88,89,90, 0,0,0,168, 0,0,0,20] ++
        List.replicate 20 0) = .error "Singular matrix in ICC profile" := by
  refine mat3Invert_singular_guard.2 _
    [("bXYZ", 168, 20), ("gXYZ", 168, 20), ("rXYZ", 168, 20)] "Custom CS"
    168 20 168 20 168 20
    ((((0:ℤ):ℚ)/65536, ((0:ℤ):ℚ)/65536, ((0:ℤ):ℚ)/65536))
    ((((0:ℤ):ℚ)/65536, ((0:ℤ):ℚ)/65536, ((0:ℤ):ℚ)/65536))
    ((((0:ℤ):ℚ)/65536, ((0:ℤ):ℚ)/65536, ((0:ℤ):ℚ)/65536))
    (by decide) (by decide) (by decide) (by decide) (by decide)
    rfl rfl rfl ?_
  norm_num [mat3Invert, mat3Det, mat3Multiply, XYZ_TO_LINEAR_SRGB, BRADFORD_D50_TO_D65]

lemma mk_zero_complex : ((⟨0, 0⟩ : ℂ) : ℂ) = 0 := by
  apply Complex.ext <;> simp

lemma atan2_zero_zero : atan2 0 0 = 0 := by
  rw [atan2, mk_zero_complex, Complex.arg_zero]

lemma oklch_roundtrip_exact (a b : ℝ) :
    oklchToOklab (oklabToOklch a b).1 (oklabToOklch a b).2 = (a, b) := by
  by_cases hz : (⟨a, b⟩ : ℂ) = 0
  · have ha : a = 0 := congrArg Complex.re hz
    have hb : b = 0 := congrArg Complex.im hz
    subst ha
    subst hb
    simp [oklabToOklch, oklchToOklab, atan2_zero_zero]
  · have hπ : (0:ℝ) < Real.pi := Real.pi_pos
    have habs : Complex.abs ⟨a, b⟩ = Real.sqrt (a * a + b * b) := by
      rw [Complex.abs_apply, Complex.normSq_mk]
    have habsne : Complex.abs ⟨a, b⟩ ≠ 0 := by
      simpa using hz
    have hcos : Real.cos (Complex.arg ⟨a, b⟩) = a / Complex.abs ⟨a, b⟩ :=
      Complex.cos_arg hz
    have hsin : Real.sin (Complex.arg ⟨a, b⟩) = b / Complex.abs ⟨a, b⟩ :=
      Complex.sin_arg ⟨a, b⟩
    set φ := Complex.arg ⟨a, b⟩ with hφ
    have key : ∀ θ : ℝ, Real.cos θ = Real.cos φ → Real.sin θ = Real.sin φ →
        (Real.sqrt (a * a + b * b) * Real.cos θ,
         Real.sqrt (a * a + b * b) * Real.sin θ) = (a, b) := by
      intro θ hc hs
      rw [hc, hs, ← habs, hcos, hsin]
      rw [mul_div_cancel₀ a habsne, mul_div_cancel₀ b habsne]
    have hπne : Real.pi ≠ 0 := ne_of_gt hπ
    have hid : (φ * (180 / Real.pi)) * (Real.pi / 180) = φ := by
      field_simp
    have hid2 : (φ * (180 / Real.pi) + 360) * (Real.pi / 180) = φ + 2 * Real.pi := by
      field_simp
      ring
    simp only [oklabToOklch, oklchToOklab, atan2]
    rw [← hφ]
    split_ifs with hneg
    · exact key _ (by rw [hid2, Real.cos_add_two_pi]) (by rw [hid2, Real.sin_add_two_pi])
    · exact key _ (by rw [hid]) (by rw [hid])

/-- C4: the polar round trip reproduces `(a, b)` exactly over the reals
(hence within `1e-9`); the hue is always in `[0, 360)` (negative `atan2`
results are shifted by 360); and the hue of the origin (chroma 0) is 0. -/
theorem oklch_polar_roundtrip :
    (∀ a b : ℝ,
      |(oklchToOklab (oklabToOklch a b).1 (oklabToOklch a b).2).1 - a| ≤ 1e-9 ∧
      |(oklchToOklab (oklabToOklch a b).1 (oklabToOklch a b).2).2 - b| ≤ 1e-9) ∧
    (∀ a b : ℝ, 0 ≤ (oklabToOklch a b).2 ∧ (oklabToOklch a b).2 < 360) ∧
    (oklabToOklch 0 0).2 = 0 := by
  refine ⟨fun a b => ?_, fun a b => ?_, ?_⟩
  · rw [oklch_roundtrip_exact a b]
    norm_num
  · have hπ : (0:ℝ) < Real.pi := Real.pi_pos
    have h1 : atan2 b a ≤ Real.pi := by
      rw [atan2]
      exact Complex.arg_le_pi _
    have h2 : -Real.pi < atan2 b a := by
      rw [atan2]
      exact Complex.neg_pi_lt_arg _
    have hd1 : atan2 b a * (180 / Real.pi) ≤ 180 := by
      have hpos : (0:ℝ) < 180 / Real.pi := by positivity
      have := mul_le_mul_of_nonneg_right h1 hpos.le
      have heq : Real.pi * (180 / Real.pi) = 180 := by field_simp
      linarith
    have hd2 : -180 < atan2 b a * (180 / Real.pi) := by
      have hpos : (0:ℝ) < 180 / Real.pi := by positivity
      have := mul_lt_mul_of_pos_right h2 hpos
      have heq : -Real.pi * (180 / Real.pi) = -180 := by
        field_simp
        ring
      linarith
    simp only [oklabToOklch]
    split_ifs with h <;> constructor <;> linarith
  · simp [oklabToOklch, atan2_zero_zero]

lemma bisectChroma_mem (ok : ℝ → Prop) : ∀ (n : ℕ) (lo hi : ℝ), lo ≤ hi →
    lo ≤ bisectChroma ok n lo hi ∧ bisectChroma ok n lo hi ≤ hi := by
  intro n
  induction n with
  | zero =>
    intro lo hi h
    exact ⟨le_refl _, h⟩
  | succ n ih =>
    intro lo hi h
    simp only [bisectChroma]
    have hmid1 : lo ≤ (lo + hi) / 2 := by linarith
    have hmid2 : (lo + hi) / 2 ≤ hi := by linarith
    split_ifs with hok
    · obtain ⟨l, r⟩ := ih ((lo + hi) / 2) hi hmid2
      exact ⟨le_trans hmid1 l, r⟩
    · obtain ⟨l, r⟩ := ih lo ((lo + hi) / 2) hmid1
      exact ⟨l, le_trans r hmid2⟩

lemma bisectChroma_zero_or_ok (ok : ℝ → Prop) : ∀ (n : ℕ) (lo hi : ℝ),
    (lo = 0 ∨ ok lo) → (bisectChroma ok n lo hi = 0 ∨ ok (bisectChroma ok n lo hi)) := by
  intro n
  induction n with
  | zero =>
    intro lo hi h
    exact h
  | succ n ih =>
    intro lo hi h
    simp only [bisectChroma]
    split_ifs with hok
    · exact ih _ _ (Or.inr hok)
    · exact ih _ _ h

lemma chroma_oklchToOklab (C h : ℝ) (hC : 0 ≤ C) :
    (oklabToOklch (oklchToOklab C h).1 (oklchToOklab C h).2).1 = C := by
  simp only [oklchToOklab, oklabToOklch]
  have hid : C * Real.cos (h * (Real.pi / 180)) * (C * Real.cos (h * (Real.pi / 180)))
      + C * Real.sin (h * (Real.pi / 180)) * (C * Real.sin (h * (Real.pi / 180)))
      = C ^ 2 := by
    have hsc := Real.sin_sq_add_cos_sq (h * (Real.pi / 180))
    nlinarith [hsc]
  rw [hid]
  exact Real.sqrt_sq hC

lemma hue_oklchToOklab (a b C : ℝ) (hC : 0 < C) :
    (oklabToOklch (oklchToOklab C (oklabToOklch a b).2).1
                  (oklchToOklab C (oklabToOklch a b).2).2).2 = (oklabToOklch a b).2 := by
  have hπ : (0:ℝ) < Real.pi := Real.pi_pos
  have h1 : Complex.arg ⟨a, b⟩ ≤ Real.pi := Complex.arg_le_pi _
  have h2 : -Real.pi < Complex.arg ⟨a, b⟩ := Complex.neg_pi_lt_arg _
  set φ := Complex.arg ⟨a, b⟩ with hφ
  have hid : (φ * (180 / Real.pi)) * (Real.pi / 180) = φ := by
    field_simp
  have hid2 : (φ * (180 / Real.pi) + 360) * (Real.pi / 180) = φ + 2 * Real.pi := by
    field_simp
    ring
  have hargeq : Complex.arg ⟨C * Real.cos φ, C * Real.sin φ⟩ = φ := by
    have hmk : (⟨C * Real.cos φ, C * Real.sin φ⟩ : ℂ)
        = (C : ℂ) * (Complex.cos (φ:ℂ) + Complex.sin (φ:ℂ) * Complex.I) := by
      apply Complex.ext
      · simp [Complex.mul_re, Complex.add_re, Complex.add_im, Complex.mul_im,
          Complex.cos_ofReal_re, Complex.cos_ofReal_im, Complex.sin_ofReal_re,
          Complex.sin_ofReal_im]
      · simp [Complex.mul_re, Complex.add_re, Complex.add_im, Complex.mul_im,
          Complex.cos_ofReal_re, Complex.cos_ofReal_im, Complex.sin_ofReal_re,
          Complex.sin_ofReal_im]
    rw [hmk]
    exact Complex.arg_mul_cos_add_sin_mul_I hC ⟨h2, h1⟩
  have hpoint : oklchToOklab C (oklabToOklch a b).2 = (C * Real.cos φ, C * Real.sin φ) := by
    simp only [oklabToOklch, oklchToOklab, atan2, ← hφ]
    split_ifs with hneg
    · rw [hid2, Real.cos_add_two_pi, Real.sin_add_two_pi]
    · rw [hid]
  rw [hpoint]
  simp only [oklabToOklch, atan2]
  rw [hargeq, ← hφ]

lemma srgb_L2_out (a b : ℝ) (ha : |a| ≤ 0.001) (hb : |b| ≤ 0.001) :
    ¬ isInWorkingGamut createSRGBWorkingCS 2 a b := by
  intro h
  obtain ⟨ha1, ha2⟩ := abs_le.mp ha
  obtain ⟨hb1, hb2⟩ := abs_le.mp hb
  simp only [isInWorkingGamut, createSRGBWorkingCS, oklabToLinearSRGB, isInGamut] at h
  obtain ⟨-, hr, -⟩ := h
  have hl : (1.99938 : ℝ) ≤ 2 + 0.3963377774 * a + 0.2158037573 * b := by linarith
  have hm0 : (0 : ℝ) ≤ 2 - 0.1055613458 * a - 0.0638541728 * b := by linarith
  have hm : 2 - 0.1055613458 * a - 0.0638541728 * b ≤ (2.00017 : ℝ) := by linarith
  have hs : (1.99861 : ℝ) ≤ 2 - 0.0894841775 * a - 1.2914855480 * b := by linarith
  have hl3 : (1.99938 : ℝ) ^ 3 ≤ (2 + 0.3963377774 * a + 0.2158037573 * b) ^ 3 :=
    pow_le_pow_left₀ (by norm_num) hl 3
  have hm3 : (2 - 0.1055613458 * a - 0.0638541728 * b) ^ 3 ≤ (2.00017 : ℝ) ^ 3 :=
    pow_le_pow_left₀ hm0 hm 3
  have hs3 : (1.99861 : ℝ) ^ 3 ≤ (2 - 0.0894841775 * a - 1.2914855480 * b) ^ 3 :=
    pow_le_pow_left₀ (by norm_num) hs 3
  have e1 : (7.9925 : ℝ) ≤ (1.99938 : ℝ) ^ 3 := by norm_num
  have e2 : ((2.00017 : ℝ)) ^ 3 ≤ (8.0021 : ℝ) := by norm_num
  have e3 : (7.9833 : ℝ) ≤ (1.99861 : ℝ) ^ 3 := by norm_num
  linarith

/-- C2 (amended): `clampToWorkingGamut` is a no-op on in-gamut inputs, and
on out-of-gamut inputs it returns `(a', b')` whose derived chroma is at
most the original chroma, which is in the working gamut unless its chroma
is 0, and whose derived hue equals the original hue exactly whenever the
clamped chroma is nonzero. Lightness is not part of the result at all, so
it is never modified. -/
theorem clampToWorkingGamut_invariants (W : WorkingCS) (L a b : ℝ) :
    (isInWorkingGamut W L a b → clampToWorkingGamut W L a b = (a, b)) ∧
    (¬ isInWorkingGamut W L a b →
      (oklabToOklch (clampToWorkingGamut W L a b).1 (clampToWorkingGamut W L a b).2).1
          ≤ (oklabToOklch a b).1 ∧
      ((oklabToOklch (clampToWorkingGamut W L a b).1 (clampToWorkingGamut W L a b).2).1 = 0 ∨
        isInWorkingGamut W L (clampToWorkingGamut W L a b).1 (clampToWorkingGamut W L a b).2) ∧
      ((oklabToOklch (clampToWorkingGamut W L a b).1 (clampToWorkingGamut W L a b).2).1 ≠ 0 →
        (oklabToOklch (clampToWorkingGamut W L a b).1 (clampToWorkingGamut W L a b).2).2
          = (oklabToOklch a b).2)) := by
  constructor
  · intro h
    unfold clampToWorkingGamut
    rw [if_pos h]
  · intro h
    have hstep : clampToWorkingGamut W L a b
        = oklchToOklab (findMaxInGamutChroma W L (oklabToOklch a b).2 (oklabToOklch a b).1)
            (oklabToOklch a b).2 := by
      unfold clampToWorkingGamut
      rw [if_neg h]
    have hch0 : 0 ≤ (oklabToOklch a b).1 := Real.sqrt_nonneg _
    have hbounds : 0 ≤ findMaxInGamutChroma W L (oklabToOklch a b).2 (oklabToOklch a b).1 ∧
        findMaxInGamutChroma W L (oklabToOklch a b).2 (oklabToOklch a b).1
          ≤ (oklabToOklch a b).1 := by
      unfold findMaxInGamutChroma
      split_ifs with hok
      · exact ⟨hch0, le_refl _⟩
      · exact bisectChroma_mem _ 20 0 (oklabToOklch a b).1 hch0
    have hzo : findMaxInGamutChroma W L (oklabToOklch a b).2 (oklabToOklch a b).1 = 0 ∨
        chromaOk W L (oklabToOklch a b).2
          (findMaxInGamutChroma W L (oklabToOklch a b).2 (oklabToOklch a b).1) := by
      unfold findMaxInGamutChroma
      split_ifs with hok
      · exact Or.inr hok
      · exact bisectChroma_zero_or_ok _ 20 0 (oklabToOklch a b).1 (Or.inl rfl)
    have hcr : (oklabToOklch (clampToWorkingGamut W L a b).1
        (clampToWorkingGamut W L a b).2).1
          = findMaxInGamutChroma W L (oklabToOklch a b).2 (oklabToOklch a b).1 := by
      rw [hstep]
      exact chroma_oklchToOklab _ _ hbounds.1
    refine ⟨?_, ?_, ?_⟩
    · rw [hcr]
      exact hbounds.2
    · rcases hzo with h0 | hok
      · left
        rw [hcr, h0]
      · right
        rw [hstep]
        simpa [chromaOk] using hok
    · intro hne
      rw [hcr] at hne
      have hCpos : 0 < findMaxInGamutChroma W L (oklabToOklch a b).2 (oklabToOklch a b).1 :=
        lt_of_le_of_ne hbounds.1 (Ne.symm hne)
      rw [hstep]
      exact hue_oklchToOklab a b _ hCpos

lemma hue_0_0001 : (oklabToOklch 0 0.001).2 = 90 := by
  have hπ : (0:ℝ) < Real.pi := Real.pi_pos
  have hz : (⟨(0:ℝ), (0.001:ℝ)⟩ : ℂ) = ((0.001:ℝ) : ℂ) * Complex.I := by
    apply Complex.ext <;> simp
  have harg : atan2 0.001 0 = Real.pi / 2 := by
    rw [atan2, hz, Complex.arg_real_mul _ (by norm_num : (0:ℝ) < 0.001), Complex.arg_I]
  have hd : atan2 0.001 0 * (180 / Real.pi) = 90 := by
    rw [harg]
    field_simp
    ring
  simp only [oklabToOklch, hd]
  norm_num

lemma chroma_0_0001 : (oklabToOklch 0 0.001).1 = 0.001 := by
  simp only [oklabToOklch]
  have : (0:ℝ) * 0 + 0.001 * 0.001 = (0.001:ℝ) ^ 2 := by norm_num
  rw [this, Real.sqrt_sq (by norm_num : (0:ℝ) ≤ 0.001)]

lemma notok_L2 : ∀ c : ℝ, 0 ≤ c → c ≤ 0.001 →
    ¬ chromaOk createSRGBWorkingCS 2 90 c := by
  intro c h0 h1 hok
  have hang : (90:ℝ) * (Real.pi / 180) = Real.pi / 2 := by
    field_simp
    ring
  have hpt : oklchToOklab c 90 = (c * Real.cos (Real.pi / 2), c * Real.sin (Real.pi / 2)) := by
    simp only [oklchToOklab, hang]
  rw [Real.cos_pi_div_two, Real.sin_pi_div_two] at hpt
  have hok2 : isInWorkingGamut createSRGBWorkingCS 2 (c * 0) (c * 1) := by
    have := hok
    unfold chromaOk at this
    rw [hpt] at this
    exact this
  have : isInWorkingGamut createSRGBWorkingCS 2 0 c := by
    simpa using hok2
  exact srgb_L2_out 0 c (by norm_num) (by rw [abs_of_nonneg h0]; exact h1) this

/-- C2 counterexample: at `L = 2` (out of every gamut) with input hue 90°,
the clamp collapses chroma to 0 and returns `(0, 0)`, whose derived hue is
0, not 90 — the claim that the derived hue always equals the original hue
fails when the clamped chroma is zero. -/
theorem clampToWorkingGamut_hue_counterexample :
    ¬ isInWorkingGamut createSRGBWorkingCS 2 0 0.001 ∧
    (oklabToOklch 0 0.001).2 = 90 ∧
    clampToWorkingGamut createSRGBWorkingCS 2 0 0.001 = (0, 0) ∧
    (oklabToOklch 0 0).2 = 0 := by
  have hout : ¬ isInWorkingGamut createSRGBWorkingCS 2 0 0.001 :=
    srgb_L2_out 0 0.001 (by norm_num [abs_le]) (by norm_num [abs_le])
  refine ⟨hout, hue_0_0001, ?_, by simp [oklabToOklch, atan2_zero_zero]⟩
  have hmax : findMaxInGamutChroma createSRGBWorkingCS 2 90 0.001 = 0 := by
    unfold findMaxInGamutChroma
    rw [if_neg (notok_L2 0.001 (by norm_num) (by norm_num))]
    have hmem := bisectChroma_mem (chromaOk createSRGBWorkingCS 2 90) 20 0 0.001 (by norm_num)
    rcases bisectChroma_zero_or_ok (chromaOk createSRGBWorkingCS 2 90) 20 0 0.001
        (Or.inl rfl) with h0 | hok
    · exact h0
    · exact absurd hok (notok_L2 _ hmem.1 hmem.2)
  unfold clampToWorkingGamut
  rw [if_neg hout]
  simp only [hue_0_0001, chroma_0_0001, hmax]
  simp [oklchToOklab]

/-- C2 witness: the amended invariants instantiated at a concrete
out-of-gamut input. -/
theorem clampToWorkingGamut_invariants_witness :
    (oklabToOklch (clampToWorkingGamut createSRGBWorkingCS 2 0 0.001).1
        (clampToWorkingGamut createSRGBWorkingCS 2 0 0.001).2).1
      ≤ (oklabToOklch 0 0.001).1 ∧
    ((oklabToOklch (clampToWorkingGamut createSRGBWorkingCS 2 0 0.001).1
        (clampToWorkingGamut createSRGBWorkingCS 2 0 0.001).2).1 = 0 ∨
      isInWorkingGamut createSRGBWorkingCS 2
        (clampToWorkingGamut createSRGBWorkingCS 2 0 0.001).1
        (clampToWorkingGamut createSRGBWorkingCS 2 0 0.001).2) :=
  ⟨((clampToWorkingGamut_invariants createSRGBWorkingCS 2 0 0.001).2
      (srgb_L2_out 0 0.001 (by norm_num [abs_le]) (by norm_num [abs_le]))).1,
   ((clampToWorkingGamut_invariants createSRGBWorkingCS 2 0 0.001).2
      (srgb_L2_out 0 0.001 (by norm_num [abs_le]) (by norm_num [abs_le]))).2.1⟩

lemma rpow_inv24_pow12 {x : ℝ} (h0 : 0 ≤ x) :
    (x ^ ((1:ℝ)/2.4)) ^ (12:ℕ) = x ^ (5:ℕ) := by
  rw [← Real.rpow_natCast (x ^ ((1:ℝ)/2.4)) 12, ← Real.rpow_mul h0,
    show ((1:ℝ)/2.4 * ((12:ℕ):ℝ) = ((5:ℕ):ℝ)) by push_cast; norm_num,
    Real.rpow_natCast]

/-- C8: the sRGB gamma round trip `gammaToLinear (linearToGamma x)` is
within `1e-6` of `x` on `[0,1]` (it is exact except in the tiny window
just above the encode threshold 0.0031308, where the encoded value falls
marginally below the decode threshold 0.04045 and the error stays below
`1e-8`); `linearToGamma` clamps its input to `[0,1]` before encoding; and
`gammaToLinear` applies no clamping: at input 2 it returns a value above
1, unlike at the clamped input. -/
theorem gamma_roundtrip :
    (∀ x : ℝ, 0 ≤ x → x ≤ 1 → |gammaToLinear (linearToGamma x) - x| ≤ 1e-6) ∧
    (∀ x : ℝ, linearToGamma x = linearToGamma (clamp01 x)) ∧
    gammaToLinear (clamp01 2) = 1 ∧ 1 < gammaToLinear 2 := by
  refine ⟨?_, ?_, ?_, ?_⟩
  · intro x h0 h1
    have hcl : max 0 (min 1 x) = x := by
      rw [min_eq_right h1, max_eq_right h0]
    simp only [linearToGamma, hcl]
    by_cases hx : (0.0031308:ℝ) ≤ x
    · rw [if_pos hx]
      by_cases hy4 : (0.04045:ℝ) ≤ 1.055 * x ^ ((1:ℝ)/2.4) - 0.055
      · simp only [gammaToLinear]
        rw [if_pos hy4]
        have hxr : ((1.055 * x ^ ((1:ℝ)/2.4) - 0.055 + 0.055)/1.055) = x ^ ((1:ℝ)/2.4) := by
          ring
        rw [hxr]
        have hpow : (x ^ ((1:ℝ)/2.4)) ^ ((2.4):ℝ) = x := by
          rw [← Real.rpow_mul h0]
          norm_num
        rw [hpow]
        norm_num
      · simp only [gammaToLinear]
        rw [if_neg hy4]
        push_neg at hy4
        have ht : (0.09047384595:ℝ) ≤ x ^ ((1:ℝ)/2.4) := by
          have hA : (0:ℝ) ≤ 0.0031308 := by norm_num
          have hmono : (0.0031308:ℝ) ^ ((1:ℝ)/2.4) ≤ x ^ ((1:ℝ)/2.4) :=
            Real.rpow_le_rpow hA hx (by norm_num)
          have hs0 : (0:ℝ) ≤ (0.0031308:ℝ) ^ ((1:ℝ)/2.4) := Real.rpow_nonneg hA _
          have hp : ((0.0031308:ℝ) ^ ((1:ℝ)/2.4)) ^ (12:ℕ) = (0.0031308:ℝ) ^ (5:ℕ) :=
            rpow_inv24_pow12 hA
          have h2' : (0.09047384595:ℝ) ≤ (0.0031308:ℝ) ^ ((1:ℝ)/2.4) := by
            by_contra hc
            push_neg at hc
            have hlt := pow_lt_pow_left₀ hc hs0 (by norm_num : (12:ℕ) ≠ 0)
            rw [hp] at hlt
            norm_num at hlt
          linarith
        have hX : x < (0.0031308072831:ℝ) := by
          have hq : x ^ ((1:ℝ)/2.4) < (0.09545:ℝ)/1.055 := by linarith
          have hx5 : x ^ (5:ℕ) = (x ^ ((1:ℝ)/2.4)) ^ (12:ℕ) :=
            (rpow_inv24_pow12 h0).symm
          have h12 : (x ^ ((1:ℝ)/2.4)) ^ (12:ℕ) < ((0.09545:ℝ)/1.055) ^ (12:ℕ) :=
            pow_lt_pow_left₀ hq (Real.rpow_nonneg h0 _) (by norm_num : (12:ℕ) ≠ 0)
          have hqX : ((0.09545:ℝ)/1.055) ^ (12:ℕ) ≤ (0.0031308072831:ℝ) ^ (5:ℕ) := by
            norm_num
          have hfin : x ^ (5:ℕ) < (0.0031308072831:ℝ) ^ (5:ℕ) := by
            rw [hx5]
            linarith
          exact (pow_lt_pow_iff_left₀ h0 (by norm_num) (by norm_num)).1 hfin
        have hylo : (0.04044990747:ℝ) ≤ 1.055 * x ^ ((1:ℝ)/2.4) - 0.055 := by
          nlinarith [ht]
        have h1292 : (12.92:ℝ) = 323/25 := by norm_num
        rw [abs_le, h1292]
        constructor <;> linarith
    · rw [if_neg hx]
      push_neg at hx
      have hlin : ¬ (0.04045:ℝ) ≤ 12.92 * x := by
        push_neg
        nlinarith
      simp only [gammaToLinear]
      rw [if_neg hlin]
      have hdiv : 12.92 * x / 12.92 = x := by
        field_simp
      rw [hdiv]
      norm_num
  · intro x
    simp only [linearToGamma, clamp01]
    have h1 : max 0 (min 1 x) ≤ 1 := max_le (by norm_num) (min_le_left _ _)
    have h0 : (0:ℝ) ≤ max 0 (min 1 x) := le_max_left _ _
    rw [min_eq_right h1, max_eq_right h0]
  · have hc2 : clamp01 (2:ℝ) = 1 := by
      unfold clamp01
      rw [min_eq_left (by norm_num : (1:ℝ) ≤ 2)]
      norm_num
    rw [hc2]
    simp only [gammaToLinear]
    rw [if_pos (by norm_num : (0.04045:ℝ) ≤ 1)]
    have hb : ((1:ℝ) + 0.055)/1.055 = 1 := by norm_num
    rw [hb, Real.one_rpow]
  · simp only [gammaToLinear]
    rw [if_pos (by norm_num : (0.04045:ℝ) ≤ 2)]
    have hpos : (0:ℝ) < (2 + 0.055)/1.055 := by norm_num
    rw [Real.one_lt_rpow_iff_of_pos hpos]
    left
    constructor <;> norm_num

/-- C8 witness: the round trip at `x = 1/2` and the clamp facts at
concrete points. -/
theorem gamma_roundtrip_witness :
    |gammaToLinear (linearToGamma (1/2)) - 1/2| ≤ 1e-6 ∧
    linearToGamma 2 = linearToGamma (clamp01 2) :=
  ⟨gamma_roundtrip.1 (1/2) (by norm_num) (by norm_num), gamma_roundtrip.2.1 2⟩

/-- C1 counterexample: at OKLab input `(0.15853511096, -0.4, 0)` — chosen
so that the first LMS cube-root coordinate is exactly 0 — the `a`
component of the round trip differs from the input by about `1.55e-4`,
far beyond the claimed `1e-6`: the fixed decimal matrices are not exact
inverses, and the residual is amplified by the cube root near zero. -/
theorem oklab_roundtrip_counterexample :
    ¬ (|(linearSRGBToOKLab (oklabToLinearSRGB 0.15853511096 (-0.4) 0).1
          (oklabToLinearSRGB 0.15853511096 (-0.4) 0).2.1
          (oklabToLinearSRGB 0.15853511096 (-0.4) 0).2.2).2.1 - (-0.4)| ≤ 1e-6) := by
  have hF : oklabToLinearSRGB 0.15853511096 (-0.4) 0 =
      ((-0.0250693747539804101743211542581351430008064 : ℝ), (0.0186120680321202153857362190676911780612032 : ℝ), (0.0068397334632792928180342095788784880562816 : ℝ)) := by
    simp only [oklabToLinearSRGB]
    norm_num
  rw [hF]
  simp only [linearSRGBToOKLab]
  have hw1 : (0.4122214708 * (-0.0250693747539804101743211542581351430008064 : ℝ)
      + 0.5363325363 * (0.0186120680321202153857362190676911780612032 : ℝ)
      + 0.0514459929 * (0.0068397334632792928180342095788784880562816 : ℝ))
      = (-0.00000000000047724894307815244654282591175451291437632 : ℝ) := by norm_num
  have hw2 : (0.2119034982 * (-0.0250693747539804101743211542581351430008064 : ℝ)
      + 0.6806995451 * (0.0186120680321202153857362190676911780612032 : ℝ)
      + 0.1073969566 * (0.0068397334632792928180342095788784880562816 : ℝ))
      = (0.0080915045926906434158322526538687856617700899702944 : ℝ) := by norm_num
  have hw3 : (0.0883024619 * (-0.0250693747539804101743211542581351430008064 : ℝ)
      + 0.2817188376 * (0.0186120680321202153857362190676911780612032 : ℝ)
      + 0.6299787005 * (0.0068397334632792928180342095788784880562816 : ℝ))
      = (0.00733856906123390285723105148877243532239808158618496 : ℝ) := by norm_num
  rw [hw1, hw2, hw3]
  have h1lo : (-0.0000781475 : ℝ) ≤ cbrt (-0.00000000000047724894307815244654282591175451291437632 : ℝ) :=
    le_cbrt_of_cube (by norm_num)
  have h1hi : cbrt (-0.00000000000047724894307815244654282591175451291437632 : ℝ) ≤ (-0.0000781474 : ℝ) :=
    cbrt_le_of_cube (by norm_num)
  have h2lo : (0.200759649284 : ℝ) ≤ cbrt (0.0080915045926906434158322526538687856617700899702944 : ℝ) :=
    le_cbrt_of_cube (by norm_num)
  have h2hi : cbrt (0.0080915045926906434158322526538687856617700899702944 : ℝ) ≤ (0.200759649285 : ℝ) :=
    cbrt_le_of_cube (by norm_num)
  have h3lo : (0.194328781954 : ℝ) ≤ cbrt (0.00733856906123390285723105148877243532239808158618496 : ℝ) :=
    le_cbrt_of_cube (by norm_num)
  have h3hi : cbrt (0.00733856906123390285723105148877243532239808158618496 : ℝ) ≤ (0.194328781955 : ℝ) :=
    cbrt_le_of_cube (by norm_num)
  intro hcontra
  have hlow := (abs_le.mp hcontra).1
  linarith

lemma lms_product_bound (x1 x2 x3 : ℝ)
    (h1 : |x1| ≤ 1.93) (h2 : |x2| ≤ 1.22) (h3 : |x3| ≤ 3.75) :
    |0.4122214708 * (4.0767416621 * x1 - 3.3077115913 * x2 + 0.2309699292 * x3)
      + 0.5363325363 * (-1.2684380046 * x1 + 2.6097574011 * x2 - 0.3413193965 * x3)
      + 0.0514459929 * (-0.0041960863 * x1 - 0.7034186147 * x2 + 1.7076147010 * x3)
      - x1| ≤ 6.5e-10 ∧
    |0.2119034982 * (4.0767416621 * x1 - 3.3077115913 * x2 + 0.2309699292 * x3)
      + 0.6806995451 * (-1.2684380046 * x1 + 2.6097574011 * x2 - 0.3413193965 * x3)
      + 0.1073969566 * (-0.0041960863 * x1 - 0.7034186147 * x2 + 1.7076147010 * x3)
      - x2| ≤ 6.5e-10 ∧
    |0.0883024619 * (4.0767416621 * x1 - 3.3077115913 * x2 + 0.2309699292 * x3)
      + 0.2817188376 * (-1.2684380046 * x1 + 2.6097574011 * x2 - 0.3413193965 * x3)
      + 0.6299787005 * (-0.0041960863 * x1 - 0.7034186147 * x2 + 1.7076147010 * x3)
      - x3| ≤ 6.5e-10 := by
  obtain ⟨h1a, h1b⟩ := abs_le.mp h1
  obtain ⟨h2a, h2b⟩ := abs_le.mp h2
  obtain ⟨h3a, h3b⟩ := abs_le.mp h3
  refine ⟨?_, ?_, ?_⟩ <;> (rw [abs_le]; constructor <;> linarith)

lemma oklab_final_bound (L a b u1 u2 u3 : ℝ)
    (hL0 : 0 ≤ L) (hL1 : L ≤ 1)
    (ha1 : -0.4 ≤ a) (ha2 : a ≤ 0.4) (hb1 : -0.4 ≤ b) (hb2 : b ≤ 0.4)
    (h1 : |u1 - (L + 0.3963377774 * a + 0.2158037573 * b)| ≤ 0.0017326)
    (h2 : |u2 - (L - 0.1055613458 * a - 0.0638541728 * b)| ≤ 0.0017326)
    (h3 : |u3 - (L - 0.0894841775 * a - 1.2914855480 * b)| ≤ 0.0017326) :
    |0.2104542553 * u1 + 0.7936177850 * u2 - 0.0040720468 * u3 - L| ≤ 1e-2 ∧
    |1.9779984951 * u1 - 2.4285922050 * u2 + 0.4505937099 * u3 - a| ≤ 1e-2 ∧
    |0.0259040371 * u1 + 0.7827717662 * u2 - 0.8086757660 * u3 - b| ≤ 1e-2 := by
  obtain ⟨h1a, h1b⟩ := abs_le.mp h1
  obtain ⟨h2a, h2b⟩ := abs_le.mp h2
  obtain ⟨h3a, h3b⟩ := abs_le.mp h3
  refine ⟨?_, ?_, ?_⟩ <;> (rw [abs_le]; constructor <;> linarith)

lemma cuberoot_coord_bound (L a b : ℝ)
    (hL0 : 0 ≤ L) (hL1 : L ≤ 1)
    (ha1 : -0.4 ≤ a) (ha2 : a ≤ 0.4) (hb1 : -0.4 ≤ b) (hb2 : b ≤ 0.4) :
    |L + 0.3963377774 * a + 0.2158037573 * b| ≤ 1.245 ∧
    |L - 0.1055613458 * a - 0.0638541728 * b| ≤ 1.068 ∧
    |L - 0.0894841775 * a - 1.2914855480 * b| ≤ 1.5524 := by
  refine ⟨?_, ?_, ?_⟩ <;> (rw [abs_le]; constructor <;> linarith)

lemma cube_abs_bound {c B A : ℝ} (hc : |c| ≤ B) (hA : B ^ 3 ≤ A) :
    |c ^ 3| ≤ A := by
  have h1 : |c ^ 3| = |c| ^ 3 := abs_pow c 3
  have h2 : |c| ^ 3 ≤ B ^ 3 := pow_le_pow_left₀ (abs_nonneg c) hc 3
  linarith

lemma cbrt_close_of_cube_close {w c : ℝ} (h : |w - c ^ 3| ≤ 6.5e-10) :
    |cbrt w - c| ≤ 0.0017326 := by
  have e1 : |cbrt w - c| = |cbrt w - cbrt (c ^ 3)| := by rw [cbrt_cube']
  have e2 : |cbrt w - cbrt (c ^ 3)| ≤ 2 * cbrt |w - c ^ 3| := abs_cbrt_sub_cbrt _ _
  have e3 : cbrt |w - c ^ 3| ≤ cbrt (6.5e-10) := cbrt_mono h
  have e4 : cbrt ((6.5e-10) : ℝ) ≤ 0.0008663 := cbrt_le_of_cube (by norm_num)
  linarith

/-- C1 (amended): for OKLab inputs with `L ∈ [0,1]`, `a, b ∈ [-0.4, 0.4]`,
the round trip through `oklabToLinearSRGB` and `linearSRGBToOKLab`
reproduces each component within `1e-2` absolute error. (The claimed
`1e-6` fails: the fixed decimal matrices are only approximate inverses
and the residual is amplified by the cube root near zero; observed errors
reach roughly `5e-4`.) -/
theorem oklab_roundtrip_within (L a b : ℝ)
    (hL0 : 0 ≤ L) (hL1 : L ≤ 1) (ha : |a| ≤ 0.4) (hb : |b| ≤ 0.4) :
    |(linearSRGBToOKLab (oklabToLinearSRGB L a b).1 (oklabToLinearSRGB L a b).2.1
        (oklabToLinearSRGB L a b).2.2).1 - L| ≤ 1e-2 ∧
    |(linearSRGBToOKLab (oklabToLinearSRGB L a b).1 (oklabToLinearSRGB L a b).2.1
        (oklabToLinearSRGB L a b).2.2).2.1 - a| ≤ 1e-2 ∧
    |(linearSRGBToOKLab (oklabToLinearSRGB L a b).1 (oklabToLinearSRGB L a b).2.1
        (oklabToLinearSRGB L a b).2.2).2.2 - b| ≤ 1e-2 := by
  obtain ⟨ha1, ha2⟩ := abs_le.mp ha
  obtain ⟨hb1, hb2⟩ := abs_le.mp hb
  obtain ⟨hc1, hc2, hc3⟩ := cuberoot_coord_bound L a b hL0 hL1 ha1 ha2 hb1 hb2
  have hx1 : |(L + 0.3963377774 * a + 0.2158037573 * b) ^ 3| ≤ 1.93 :=
    cube_abs_bound hc1 (by norm_num)
  have hx2 : |(L - 0.1055613458 * a - 0.0638541728 * b) ^ 3| ≤ 1.22 :=
    cube_abs_bound hc2 (by norm_num)
  have hx3 : |(L - 0.0894841775 * a - 1.2914855480 * b) ^ 3| ≤ 3.75 :=
    cube_abs_bound hc3 (by norm_num)
  obtain ⟨hw1, hw2, hw3⟩ := lms_product_bound _ _ _ hx1 hx2 hx3
  have hu1 := cbrt_close_of_cube_close hw1
  have hu2 := cbrt_close_of_cube_close hw2
  have hu3 := cbrt_close_of_cube_close hw3
  simp only [oklabToLinearSRGB, linearSRGBToOKLab]
  exact oklab_final_bound L a b _ _ _ hL0 hL1 ha1 ha2 hb1 hb2 hu1 hu2 hu3

/-- C1 witness: the amended bound instantiated at a concrete in-range
input. -/
theorem oklab_roundtrip_within_witness :
    |(linearSRGBToOKLab (oklabToLinearSRGB (1/2) 0 0).1 (oklabToLinearSRGB (1/2) 0 0).2.1
        (oklabToLinearSRGB (1/2) 0 0).2.2).1 - 1/2| ≤ 1e-2 :=
  (oklab_roundtrip_within (1/2) 0 0 (by norm_num) (by norm_num)
    (by norm_num) (by norm_num)).1

end Proofs

end OklabPicker
